import Mathlib

/-!
Shallow embedding of `dworp/scheduling.py` (time sources, terminators,
schedulers) and proofs of the specified properties.

Time values are embedded as `Int` (the Python code uses exact `int`
arithmetic in all specified scenarios).  A Python `__next__` call either
returns a value or raises `StopIteration`; it is embedded as a state
transition returning `Option Int × State`, where `none` is the
`StopIteration` (exhaustion) signal.
-/

namespace Dworp

/-- State of `BasicTime` (scheduling.py): fields `start_time`, `time`,
`num_steps`, `step_size`, `step_count`, exactly as assigned in
`BasicTime.__init__`. -/
structure BasicTime where
  start_time : Int
  time : Int
  num_steps : Int
  step_size : Int
  step_count : Int
deriving DecidableEq

/-- Embedding of `BasicTime.__init__(num_steps, start=0, step_size=1)`:
only attribute assignments, no validation. -/
def BasicTime.init (num_steps start step_size : Int) : BasicTime :=
  { start_time := start, time := start, num_steps := num_steps,
    step_size := step_size, step_count := 0 }

/-- Embedding of `BasicTime.__init__` as a fallible constructor: the Python
body contains only attribute assignments and no `raise`, so it always
succeeds. -/
def BasicTime.initE (num_steps start step_size : Int) : Except String BasicTime :=
  Except.ok (BasicTime.init num_steps start step_size)

/-- Embedding of `BasicTime.get_start_time`. -/
def BasicTime.get_start_time (t : BasicTime) : Int :=
  t.start_time

/-- Embedding of `BasicTime.__next__`: increment `step_count`; if it now
exceeds `num_steps`, raise `StopIteration` (`none`), leaving the
incremented counter in place; otherwise advance `time` by `step_size` and
return it. -/
def BasicTime.next (t : BasicTime) : Option Int × BasicTime :=
  let t1 : BasicTime := { t with step_count := t.step_count + 1 }
  if t1.step_count > t1.num_steps then
    (none, t1)
  else
    let t2 : BasicTime := { t1 with time := t1.time + t1.step_size }
    (some t2.time, t2)

/-- State of a `BasicTime` after `k` successive `__next__` calls. -/
def BasicTime.after (t : BasicTime) : Nat → BasicTime
  | 0 => t
  | k + 1 => ((t.after k).next).2

/-- Outcome of the `(k+1)`-th `__next__` call on a `BasicTime` (0-indexed:
`nth t 0` is the first pull). -/
def BasicTime.nth (t : BasicTime) (k : Nat) : Option Int :=
  ((t.after k).next).1

/-- State of `InfiniteTime` (scheduling.py): fields `start_time`, `time`,
`step_size`, exactly as assigned in `InfiniteTime.__init__`. -/
structure InfiniteTime where
  start_time : Int
  time : Int
  step_size : Int
deriving DecidableEq

/-- Embedding of `InfiniteTime.__init__(start=0, step_size=1)`. -/
def InfiniteTime.init (start step_size : Int) : InfiniteTime :=
  { start_time := start, time := start, step_size := step_size }

/-- Embedding of `InfiniteTime.get_start_time`. -/
def InfiniteTime.get_start_time (t : InfiniteTime) : Int :=
  t.start_time

/-- Embedding of `InfiniteTime.__next__`: advance `time` by `step_size` and
return it; the body has no `raise`, so it never signals exhaustion. -/
def InfiniteTime.next (t : InfiniteTime) : Option Int × InfiniteTime :=
  let t1 : InfiniteTime := { t with time := t.time + t.step_size }
  (some t1.time, t1)

/-- State of an `InfiniteTime` after `k` successive `__next__` calls. -/
def InfiniteTime.after (t : InfiniteTime) : Nat → InfiniteTime
  | 0 => t
  | k + 1 => ((t.after k).next).2

/-- Outcome of the `(k+1)`-th `__next__` call on an `InfiniteTime`. -/
def InfiniteTime.nth (t : InfiniteTime) (k : Nat) : Option Int :=
  ((t.after k).next).1

/-! Field-wise characterization of `BasicTime.next` and `BasicTime.after`. -/

lemma BasicTime.next_snd_start_time (t : BasicTime) :
    (t.next).2.start_time = t.start_time := by
  by_cases h : t.step_count + 1 > t.num_steps <;> simp [BasicTime.next, h]

lemma BasicTime.next_snd_num_steps (t : BasicTime) :
    (t.next).2.num_steps = t.num_steps := by
  by_cases h : t.step_count + 1 > t.num_steps <;> simp [BasicTime.next, h]

lemma BasicTime.next_snd_step_size (t : BasicTime) :
    (t.next).2.step_size = t.step_size := by
  by_cases h : t.step_count + 1 > t.num_steps <;> simp [BasicTime.next, h]

lemma BasicTime.next_snd_step_count (t : BasicTime) :
    (t.next).2.step_count = t.step_count + 1 := by
  by_cases h : t.step_count + 1 > t.num_steps <;> simp [BasicTime.next, h]

lemma BasicTime.next_snd_time (t : BasicTime) :
    (t.next).2.time =
      if t.step_count + 1 > t.num_steps then t.time else t.time + t.step_size := by
  by_cases h : t.step_count + 1 > t.num_steps <;> simp [BasicTime.next, h]

lemma BasicTime.next_fst (t : BasicTime) :
    (t.next).1 =
      if t.step_count + 1 > t.num_steps then none
      else some (t.time + t.step_size) := by
  by_cases h : t.step_count + 1 > t.num_steps <;> simp [BasicTime.next, h]

lemma BasicTime.after_start_time (n s d : Int) (k : Nat) :
    ((BasicTime.init n s d).after k).start_time = s := by
  induction k with
  | zero => rfl
  | succ k ih => rw [BasicTime.after, BasicTime.next_snd_start_time, ih]

lemma BasicTime.after_num_steps (n s d : Int) (k : Nat) :
    ((BasicTime.init n s d).after k).num_steps = n := by
  induction k with
  | zero => rfl
  | succ k ih => rw [BasicTime.after, BasicTime.next_snd_num_steps, ih]

lemma BasicTime.after_step_size (n s d : Int) (k : Nat) :
    ((BasicTime.init n s d).after k).step_size = d := by
  induction k with
  | zero => rfl
  | succ k ih => rw [BasicTime.after, BasicTime.next_snd_step_size, ih]

lemma BasicTime.after_step_count (n s d : Int) (k : Nat) :
    ((BasicTime.init n s d).after k).step_count = (k : Int) := by
  induction k with
  | zero => rfl
  | succ k ih =>
      rw [BasicTime.after, BasicTime.next_snd_step_count, ih]
      push_cast
      ring

lemma BasicTime.after_time (n s d : Int) (k : Nat) :
    ((BasicTime.init n s d).after k).time = s + min (k : Int) (max n 0) * d := by
  induction k with
  | zero => simp [BasicTime.after, BasicTime.init]
  | succ k ih =>
      rw [BasicTime.after, BasicTime.next_snd_time, BasicTime.after_step_count,
        BasicTime.after_num_steps, BasicTime.after_step_size, ih]
      by_cases h : (k : Int) + 1 > n
      · rw [if_pos h]
        have hmin : min ((k : Int) + 1) (max n 0) = min (k : Int) (max n 0) := by omega
        rw [Nat.cast_succ, hmin]
      · rw [if_neg h]
        have hmin : min ((k : Int) + 1) (max n 0) = min (k : Int) (max n 0) + 1 := by omega
        rw [Nat.cast_succ, hmin]
        ring

/-- Full characterization of the value produced by the `(k+1)`-th pull of a
`BasicTime`. -/
lemma BasicTime.nth_eq_ite (n s d : Int) (k : Nat) :
    (BasicTime.init n s d).nth k =
      if (k : Int) < n then some (s + ((k : Int) + 1) * d) else none := by
  unfold BasicTime.nth
  rw [BasicTime.next_fst, BasicTime.after_step_count, BasicTime.after_num_steps,
    BasicTime.after_time, BasicTime.after_step_size]
  by_cases h : (k : Int) < n
  · have hgt : ¬ ((k : Int) + 1 > n) := by omega
    have hmin : min (k : Int) (max n 0) = (k : Int) := by omega
    rw [if_neg hgt, if_pos h, hmin]
    ring_nf
  · have hgt : (k : Int) + 1 > n := by omega
    rw [if_pos hgt, if_neg h]

/-! Characterization of `InfiniteTime.after` and `InfiniteTime.nth`. -/

lemma InfiniteTime.after_eq (s d : Int) (k : Nat) :
    (InfiniteTime.init s d).after k =
      { start_time := s, time := s + (k : Int) * d, step_size := d } := by
  induction k with
  | zero => simp [InfiniteTime.after, InfiniteTime.init]
  | succ k ih =>
      rw [InfiniteTime.after, ih]
      unfold InfiniteTime.next
      simp only
      congr 1
      push_cast
      ring

lemma InfiniteTime.nth_eq_some (s d : Int) (k : Nat) :
    (InfiniteTime.init s d).nth k = some (s + ((k : Int) + 1) * d) := by
  unfold InfiniteTime.nth
  rw [InfiniteTime.after_eq]
  unfold InfiniteTime.next
  simp only [Option.some_inj]
  ring

/-! Embedding of the schedulers.

The schedulers are generic over the element type of the agent list and
over the environment type (they only ever read `len(agents)`); time is an
`Int` as above.  Python methods mutate objects through references, so each
`step` method is embedded in state-passing style: it returns the schedule
together with the post-call scheduler state, agent list, and environment.

The injected numpy random source (`numpy.random.RandomState`) is external
to the repository; it is modelled as a stateful tape of index sequences:
`tape c n` is the sequence the `(c+1)`-th call of `permutation(n)` yields,
and the call counter is the mutable state.  The uniform-permutation
contract the spec assumes of it is `PermContract`. -/

/-- Model of the injected `numpy.random.RandomState`: a tape of outputs for
successive `permutation(n)` calls, plus the number of calls made so far. -/
structure RandomState where
  tape : Nat → Nat → List Nat
  calls : Nat

/-- Model of `rng.permutation(n)`: read the tape at the current call index
and advance the internal state. -/
def RandomState.permutation (r : RandomState) (n : Nat) : List Nat × RandomState :=
  (r.tape r.calls n, { r with calls := r.calls + 1 })

/-- Contract assumed of the injected random source: every `permutation(n)`
call returns a permutation of `0..n-1`. -/
def PermContract (r : RandomState) : Prop :=
  ∀ c n, (r.tape c n).Perm (List.range n)

/-- Deterministic random source whose every `permutation(n)` call returns
`0..n-1` in order; a concrete inhabitant of the contract. -/
def idRng : RandomState :=
  { tape := fun _ n => List.range n, calls := 0 }

lemma idRng_contract : PermContract idRng :=
  fun _ _ => List.Perm.refl _

/-- Embedding of `BasicScheduler.step`: `return range(len(agents))`.  The
body mutates nothing, so the agent list and environment pass through
unchanged. -/
def BasicScheduler.step {α ε : Type} (time : Int) (agents : List α) (env : ε) :
    List Nat × List α × ε :=
  (List.range agents.length, agents, env)

/-- State of `RandomOrderScheduler`: its injected random source. -/
structure RandomOrderScheduler where
  rng : RandomState

/-- Embedding of `RandomOrderScheduler.__init__(rng)`. -/
def RandomOrderScheduler.init (rng : RandomState) : RandomOrderScheduler :=
  { rng := rng }

/-- Embedding of `RandomOrderScheduler.step`:
`return self.rng.permutation(len(agents))`; only the random source
advances, agents and environment pass through unchanged. -/
def RandomOrderScheduler.step {α ε : Type} (sch : RandomOrderScheduler)
    (time : Int) (agents : List α) (env : ε) :
    List Nat × RandomOrderScheduler × List α × ε :=
  let pr := sch.rng.permutation agents.length
  (pr.1, { rng := pr.2 }, agents, env)

/-- State of `RandomSampleScheduler`: sample size and random source. -/
structure RandomSampleScheduler where
  size : Nat
  rng : RandomState

/-- Embedding of `RandomSampleScheduler.__init__(size, rng)`: only
attribute assignments, no validation of `size`. -/
def RandomSampleScheduler.init (size : Nat) (rng : RandomState) : RandomSampleScheduler :=
  { size := size, rng := rng }

/-- Embedding of `RandomSampleScheduler.__init__` as a fallible
constructor: the Python body contains only attribute assignments and no
`raise`, so it always succeeds. -/
def RandomSampleScheduler.initE (size : Nat) (rng : RandomState) :
    Except String RandomSampleScheduler :=
  Except.ok (RandomSampleScheduler.init size rng)

/-- Embedding of `RandomSampleScheduler.step`:
`return self.rng.permutation(len(agents))[:self.size]` (a Python slice
`[:k]` for `k ≥ 0` is `List.take k`); `size` is untouched, only the random
source advances, agents and environment pass through unchanged. -/
def RandomSampleScheduler.step {α ε : Type} (sch : RandomSampleScheduler)
    (time : Int) (agents : List α) (env : ε) :
    List Nat × RandomSampleScheduler × List α × ε :=
  let pr := sch.rng.permutation agents.length
  (pr.1.take sch.size, { sch with rng := pr.2 }, agents, env)

/-- C1: a `BasicTime(n, s, d)` with `n ≥ 0` produces, over successive
pulls, exactly the `n` values `s+d, s+2d, …, s+nd` in order (the `(k+1)`-th
pull, `k < n`, yields `s+(k+1)d`), and every pull from the `(n+1)`-th on
signals exhaustion (`none`, i.e. `StopIteration`) rather than an error. -/
theorem claim_c1_basicTime_exact_sequence (n : Nat) (s d : Int) (k : Nat) :
    (k < n → (BasicTime.init (n : Int) s d).nth k = some (s + ((k : Int) + 1) * d)) ∧
    (n ≤ k → (BasicTime.init (n : Int) s d).nth k = none) := by
  constructor
  · intro hk
    rw [BasicTime.nth_eq_ite, if_pos (by exact_mod_cast hk)]
  · intro hk
    rw [BasicTime.nth_eq_ite, if_neg (by exact_mod_cast Nat.not_lt.mpr hk)]

/-- Witness for C1 at `n = 2`, `s = 10`, `d = 3`: the second pull yields
`16` and the third signals exhaustion. -/
theorem claim_c1_witness :
    (BasicTime.init 2 10 3).nth 1 = some 16 ∧ (BasicTime.init 2 10 3).nth 2 = none := by
  constructor
  · have h := (claim_c1_basicTime_exact_sequence 2 10 3 1).1 (by decide)
    simpa using h
  · have h := (claim_c1_basicTime_exact_sequence 2 10 3 2).2 (by decide)
    simpa using h

/-- C2: an `InfiniteTime(s, d)` never signals exhaustion and the `(k+1)`-th
pull (`k : Nat`, so the 1-based `k`-th value for every `k ≥ 1`) yields
exactly `s + (k+1)·d`: the code's repeated `self.time += step_size` equals
the closed form over exact arithmetic. -/
theorem claim_c2_infiniteTime_closed_form (s d : Int) (k : Nat) :
    (InfiniteTime.init s d).nth k = some (s + ((k : Int) + 1) * d) :=
  InfiniteTime.nth_eq_some s d k

/-- Counterexample to C3: construction never raises.  `BasicTime(-1)` and
`RandomSampleScheduler(100, rng)` both construct successfully (the
`Except`-valued constructors return `ok`), and the misconfigured objects
then run: the negative-step time source just signals exhaustion at its
first pull, and the oversized sampler returns a truncated schedule instead
of failing. -/
theorem claim_c3_counterexample :
    BasicTime.initE (-1) 0 1 = Except.ok (BasicTime.init (-1) 0 1) ∧
    (BasicTime.init (-1) 0 1).nth 0 = none ∧
    RandomSampleScheduler.initE 100 idRng
      = Except.ok (RandomSampleScheduler.init 100 idRng) ∧
    ((RandomSampleScheduler.init 100 idRng).step 0 ([9, 8, 7] : List Int) (0 : Int)).1
      = [0, 1, 2] := by
  refine ⟨rfl, by decide, rfl, by decide⟩

/-- C3 (amended): neither constructor performs any validation — both always
succeed, for every argument; a misconfigured component is not rejected but
simply behaves degenerately later (a non-positive `num_steps` yields
exhaustion at the very first pull). -/
theorem claim_c3_amended_no_validation (n s d : Int) (size : Nat) (r : RandomState)
    (hn : n ≤ 0) :
    BasicTime.initE n s d = Except.ok (BasicTime.init n s d) ∧
    RandomSampleScheduler.initE size r = Except.ok (RandomSampleScheduler.init size r) ∧
    (BasicTime.init n s d).nth 0 = none := by
  refine ⟨rfl, rfl, ?_⟩
  rw [BasicTime.nth_eq_ite, if_neg (by push_cast; omega)]

/-- Witness for the amended C3 at `num_steps = -2` and `size = 7`. -/
theorem claim_c3_amended_witness :
    BasicTime.initE (-2) 0 1 = Except.ok (BasicTime.init (-2) 0 1) ∧
    RandomSampleScheduler.initE 7 idRng = Except.ok (RandomSampleScheduler.init 7 idRng) ∧
    (BasicTime.init (-2) 0 1).nth 0 = none :=
  claim_c3_amended_no_validation (-2) 0 1 7 idRng (by decide)

/-- Counterexample to C4: the constructors accept a negative `step_size`,
and then the produced values strictly decrease and the first produced value
is strictly below the declared start time: `BasicTime(2, 0, -1)` produces
`-1` then `-2`, with `get_start_time() = 0`. -/
theorem claim_c4_counterexample :
    (BasicTime.init 2 0 (-1)).nth 0 = some (-1) ∧
    (BasicTime.init 2 0 (-1)).nth 1 = some (-2) ∧
    ¬ ((-1 : Int) ≤ (-2 : Int)) ∧
    (BasicTime.init 2 0 (-1)).get_start_time = 0 ∧
    ¬ ((0 : Int) < (-1 : Int)) := by
  refine ⟨by decide, by decide, by decide, by decide, by decide⟩

/-- C4 (amended): provided `step_size ≥ 0`, successive values produced by
either time source are monotonically non-decreasing; and provided
`step_size > 0`, the first produced value is strictly greater than the
declared start time returned by `get_start_time()`. -/
theorem claim_c4_amended_monotone (n s d : Int) (k : Nat) (hd : 0 ≤ d) :
    (∀ v w, (BasicTime.init n s d).nth k = some v →
      (BasicTime.init n s d).nth (k + 1) = some w → v ≤ w) ∧
    (∀ v w, (InfiniteTime.init s d).nth k = some v →
      (InfiniteTime.init s d).nth (k + 1) = some w → v ≤ w) ∧
    (0 < d → ∀ v, (BasicTime.init n s d).nth 0 = some v →
      (BasicTime.init n s d).get_start_time < v) ∧
    (0 < d → ∀ v, (InfiniteTime.init s d).nth 0 = some v →
      (InfiniteTime.init s d).get_start_time < v) := by
  refine ⟨?_, ?_, ?_, ?_⟩
  · intro v w hv hw
    rw [BasicTime.nth_eq_ite] at hv hw
    push_cast at hw
    by_cases h1 : (k : Int) + 1 < n
    · rw [if_pos (by omega : (k : Int) < n)] at hv
      rw [if_pos h1] at hw
      simp only [Option.some_inj] at hv hw
      subst hv
      subst hw
      have hm := mul_le_mul_of_nonneg_right
        (by linarith : ((k : Int) + 1) ≤ ((k : Int) + 1 + 1)) hd
      linarith
    · rw [if_neg h1] at hw
      exact absurd hw (by simp)
  · intro v w hv hw
    rw [InfiniteTime.nth_eq_some] at hv hw
    push_cast at hw
    simp only [Option.some_inj] at hv hw
    subst hv
    subst hw
    have hm := mul_le_mul_of_nonneg_right
      (by linarith : ((k : Int) + 1) ≤ ((k : Int) + 1 + 1)) hd
    linarith
  · intro hd2 v hv
    rw [BasicTime.nth_eq_ite] at hv
    push_cast at hv
    by_cases h1 : (0 : Int) < n
    · rw [if_pos h1] at hv
      simp only [Option.some_inj] at hv
      subst hv
      have : (BasicTime.init n s d).get_start_time = s := rfl
      rw [this]
      linarith
    · rw [if_neg h1] at hv
      exact absurd hv (by simp)
  · intro hd2 v hv
    rw [InfiniteTime.nth_eq_some] at hv
    push_cast at hv
    simp only [Option.some_inj] at hv
    subst hv
    have : (InfiniteTime.init s d).get_start_time = s := rfl
    rw [this]
    linarith

/-- Witness for the amended C4 at `n = 5`, `s = 0`, `d = 1`, `k = 0`. -/
theorem claim_c4_amended_witness :
    (1 : Int) ≤ 2 ∧ (BasicTime.init 5 0 1).get_start_time < 1 := by
  constructor
  · exact (claim_c4_amended_monotone 5 0 1 0 (by decide)).1 1 2 (by decide) (by decide)
  · exact (claim_c4_amended_monotone 5 0 1 0 (by decide)).2.2.1 (by decide) 1 (by decide)

/-- C5: `BasicScheduler.step(time, agents, env)` returns exactly the
indices `0..len(agents)-1` (`List.range agents.length`), they are in
strictly ascending order, and the result is the same for any two choices
of time and environment. -/
theorem claim_c5_basicScheduler_in_order {α ε : Type} (t1 t2 : Int)
    (agents : List α) (e1 e2 : ε) :
    (BasicScheduler.step t1 agents e1).1 = List.range agents.length ∧
    List.Pairwise (fun a b => a < b) (BasicScheduler.step t1 agents e1).1 ∧
    (BasicScheduler.step t1 agents e1).1 = (BasicScheduler.step t2 agents e2).1 := by
  refine ⟨rfl, ?_, rfl⟩
  have h := List.pairwise_lt_range agents.length
  simpa [BasicScheduler.step] using h

/-- C6: assuming the injected random source satisfies the permutation
contract, every `RandomOrderScheduler.step` call returns a permutation of
`0..len(agents)-1`: permutation-equal to `List.range`, no duplicates, and
set-equal to the full index range. -/
theorem claim_c6_randomOrder_permutation {α ε : Type} (sch : RandomOrderScheduler)
    (t : Int) (agents : List α) (e : ε) (h : PermContract sch.rng) :
    ((sch.step t agents e).1).Perm (List.range agents.length) ∧
    ((sch.step t agents e).1).Nodup ∧
    (∀ i, i ∈ (sch.step t agents e).1 ↔ i < agents.length) := by
  have hp : (sch.step t agents e).1 = sch.rng.tape sch.rng.calls agents.length := rfl
  rw [hp]
  have hperm := h sch.rng.calls agents.length
  refine ⟨hperm, hperm.symm.nodup (List.nodup_range _), fun i => ?_⟩
  rw [hperm.mem_iff, List.mem_range]

/-- Witness for C6: with the identity random source and three agents, the
returned schedule has no duplicates. -/
theorem claim_c6_witness :
    (((RandomOrderScheduler.init idRng).step 0 ([true, false, true] : List Bool)
      (0 : Int)).1).Nodup :=
  (claim_c6_randomOrder_permutation (RandomOrderScheduler.init idRng) 0
    [true, false, true] 0 idRng_contract).2.1

/-- C7: with a contract-satisfying random source and sample size
`k ≤ len(agents)`, `RandomSampleScheduler.step` returns exactly `k`
distinct indices, each in `0..len(agents)-1`; for `k = 0` the schedule is
empty. -/
theorem claim_c7_randomSample_k_distinct {α ε : Type} (sch : RandomSampleScheduler)
    (t : Int) (agents : List α) (e : ε) (h : PermContract sch.rng)
    (hk : sch.size ≤ agents.length) :
    ((sch.step t agents e).1).length = sch.size ∧
    ((sch.step t agents e).1).Nodup ∧
    (∀ i, i ∈ (sch.step t agents e).1 → i < agents.length) ∧
    (sch.size = 0 → (sch.step t agents e).1 = []) := by
  have hp : (sch.step t agents e).1
      = (sch.rng.tape sch.rng.calls agents.length).take sch.size := rfl
  have hperm := h sch.rng.calls agents.length
  have hlen : (sch.rng.tape sch.rng.calls agents.length).length = agents.length :=
    hperm.length_eq.trans (List.length_range _)
  have hnd : (sch.rng.tape sch.rng.calls agents.length).Nodup :=
    hperm.symm.nodup (List.nodup_range _)
  refine ⟨?_, ?_, ?_, ?_⟩
  · rw [hp, List.length_take, hlen]
    exact min_eq_left hk
  · rw [hp]
    exact hnd.sublist (List.take_sublist _ _)
  · intro i hi
    rw [hp] at hi
    have hmem : i ∈ sch.rng.tape sch.rng.calls agents.length :=
      List.take_subset _ _ hi
    rw [hperm.mem_iff, List.mem_range] at hmem
    exact hmem
  · intro h0
    rw [hp, h0, List.take_zero]

/-- Witness for C7: sample size 2 from three agents with the identity
random source gives a schedule of length 2. -/
theorem claim_c7_witness :
    (((RandomSampleScheduler.init 2 idRng).step 0 ([9, 8, 7] : List Int)
      (0 : Int)).1).length = 2 :=
  (claim_c7_randomSample_k_distinct (RandomSampleScheduler.init 2 idRng) 0
    [9, 8, 7] 0 idRng_contract (by decide)).1

/-- C8: no scheduler mutates the agent list or the environment — the
state-passing embeddings return both unchanged — and the only scheduler
state that changes across a `step` call is the random source (advanced by
its `permutation` call); `RandomSampleScheduler.size` is preserved. -/
theorem claim_c8_schedulers_frame {α ε : Type} (t : Int) (agents : List α) (e : ε)
    (so : RandomOrderScheduler) (ss : RandomSampleScheduler) :
    (BasicScheduler.step t agents e).2.1 = agents ∧
    (BasicScheduler.step t agents e).2.2 = e ∧
    (so.step t agents e).2.2.1 = agents ∧
    (so.step t agents e).2.2.2 = e ∧
    (ss.step t agents e).2.2.1 = agents ∧
    (ss.step t agents e).2.2.2 = e ∧
    (so.step t agents e).2.1 = RandomOrderScheduler.init (so.rng.permutation agents.length).2 ∧
    (ss.step t agents e).2.1
      = RandomSampleScheduler.init ss.size (ss.rng.permutation agents.length).2 :=
  ⟨rfl, rfl, rfl, rfl, rfl, rfl, rfl, rfl⟩

/-- C9: if the sample size exceeds `len(agents)`, `RandomSampleScheduler.step`
does not fail: the slice truncates, and the returned schedule is a full
permutation of `0..len(agents)-1` (so it has `len(agents)` elements, not
`size`). -/
theorem claim_c9_randomSample_oversized_truncates {α ε : Type} (sch : RandomSampleScheduler)
    (t : Int) (agents : List α) (e : ε) (h : PermContract sch.rng)
    (hk : agents.length < sch.size) :
    ((sch.step t agents e).1).Perm (List.range agents.length) ∧
    ((sch.step t agents e).1).length = agents.length := by
  have hp : (sch.step t agents e).1
      = (sch.rng.tape sch.rng.calls agents.length).take sch.size := rfl
  have hperm := h sch.rng.calls agents.length
  have hlen : (sch.rng.tape sch.rng.calls agents.length).length = agents.length :=
    hperm.length_eq.trans (List.length_range _)
  have htake : (sch.rng.tape sch.rng.calls agents.length).take sch.size
      = sch.rng.tape sch.rng.calls agents.length := by
    apply List.take_of_length_le
    omega
  rw [hp, htake]
  exact ⟨hperm, hlen⟩

/-- Witness for C9: sample size 5 over two agents yields the full
2-element permutation. -/
theorem claim_c9_witness :
    (((RandomSampleScheduler.init 5 idRng).step 0 ([9, 8] : List Int)
      (0 : Int)).1).length = 2 :=
  (claim_c9_randomSample_oversized_truncates (RandomSampleScheduler.init 5 idRng) 0
    [9, 8] 0 idRng_contract (by decide)).2

/-- C10: `get_start_time()` of either time source returns exactly the
start value supplied at construction, after any number `k` of pulls —
including, for `BasicTime`, pulls made after exhaustion (any `n`, any
`k`). -/
theorem claim_c10_get_start_time_constant (n s d : Int) (k : Nat) :
    ((BasicTime.init n s d).after k).get_start_time = s ∧
    ((InfiniteTime.init s d).after k).get_start_time = s := by
  constructor
  · rw [BasicTime.get_start_time, BasicTime.after_start_time]
  · rw [InfiniteTime.get_start_time, InfiniteTime.after_eq]

end Dworp
